import Mathlib

/-
Verification of the browsernotes reMarkable-sync server against its
specification.  The Python sources under `server/` are shallowly embedded
below: pure helpers become Lean functions over `String`/`List`/`Nat`, and
the effectful reconciliation cycle (`run_sync`) and the token-refreshing
request wrapper (`_dropbox_request`) become functions from an explicit
response environment to a result together with a trace of the network and
persistence effects they perform.  Machine arithmetic does not overflow in
any of the modelled code paths, so `Nat` is used throughout.
-/

set_option maxRecDepth 10000

/-! ## Naming router: `_extract_notebook_name` (server/remarkable_sync.py)

The function applies, in order: the anchored regex `^~\s*(.+?)\s*~`
(returning the stripped first group on a match), then the global
substitutions `\s*\(\d+\)\s*` -> "" and `\s*-\s*page\s+\d+` -> "", the
final-extension removal `\.[^.]+$` -> "", and `.strip()`.  The matchers
below reproduce the backtracking semantics of those concrete patterns on
ASCII text: `\s` is the ASCII whitespace class, `\d` the ASCII digits,
and `.` matches any character except a newline. -/

def pySpace (c : Char) : Bool :=
  c == ' ' || c == '\t' || c == '\n' || c == '\r' || c == '\x0b' || c == '\x0c'

/-- Drop the maximal run of whitespace at the head of the list. -/
def skipPyWs : List Char → List Char
  | [] => []
  | c :: r => if pySpace c then skipPyWs r else c :: r

/-- Length of the maximal whitespace run at the head of the list. -/
def wsRunLen : List Char → Nat
  | [] => 0
  | c :: r => if pySpace c then wsRunLen r + 1 else 0

/-- Does `\s*~` match at the head of the list?  (Greedy `\s*` followed by a
literal `~`; backtracking cannot help because a shorter whitespace run ends
at a whitespace character, which is not `~`.) -/
def wsTilde (l : List Char) : Bool :=
  (skipPyWs l).head? == some '~'

/-- The lazy group `(.+?)` followed by `\s*~`: the shortest non-empty
newline-free prefix after which `\s*~` matches, exactly as the regex
engine expands a lazy quantifier. -/
def lazyGroup : List Char → Option (List Char)
  | [] => none
  | c :: r =>
    if c == '\n' then none
    else if wsTilde r then some [c]
    else (lazyGroup r).map (c :: ·)

/-- Backtracking over the first `\s*` of `^~\s*(.+?)\s*~`: the engine
tries the maximal whitespace run first and retreats one character at a
time on failure. -/
def tildeGo (t : List Char) : Nat → Option (List Char)
  | 0 => lazyGroup t
  | k + 1 =>
    match lazyGroup (t.drop (k + 1)) with
    | some g => some g
    | none => tildeGo t k

/-- `re.match(r"^~\s*(.+?)\s*~", s)`: group 1 on success. -/
def tildeMatch : List Char → Option (List Char)
  | '~' :: t => tildeGo t (wsRunLen t)
  | _ => none

/-- `str.strip()`: remove leading and trailing whitespace. -/
def stripChars (l : List Char) : List Char :=
  (skipPyWs (skipPyWs l).reverse).reverse

/-- Maximal digit run at the head, with the remainder. -/
def digitRun : List Char → Nat × List Char
  | [] => (0, [])
  | c :: r =>
    if c.isDigit then
      let dr := digitRun r
      (dr.1 + 1, dr.2)
    else (0, c :: r)

/-- Match `\s*\(\d+\)\s*` anchored at the head of the list; on success
return the remainder after the match. -/
def matchParen (l : List Char) : Option (List Char) :=
  match skipPyWs l with
  | '(' :: r1 =>
    let dr := digitRun r1
    if dr.1 == 0 then none
    else
      match dr.2 with
      | ')' :: r2 => some (skipPyWs r2)
      | _ => none
  | _ => none

/-- Match `\s*-\s*page\s+\d+` anchored at the head of the list; on success
return the remainder after the match. -/
def matchPage (l : List Char) : Option (List Char) :=
  match skipPyWs l with
  | '-' :: r1 =>
    match skipPyWs r1 with
    | 'p' :: 'a' :: 'g' :: 'e' :: r2 =>
      match r2 with
      | c :: r3 =>
        if pySpace c then
          let dr := digitRun (skipPyWs r3)
          if dr.1 == 0 then none else some dr.2
        else none
      | [] => none
    | _ => none
  | _ => none

/-- `re.sub(pattern, "", s)`: scan left to right, delete each leftmost
match, and resume after the deleted text.  Both patterns above consume at
least one character on a match, so fuel `length + 1` is never exhausted. -/
def subAllGo (m : List Char → Option (List Char)) : Nat → List Char → List Char
  | 0, l => l
  | _ + 1, [] => []
  | fuel + 1, c :: r =>
    match m (c :: r) with
    | some rem => subAllGo m fuel rem
    | none => c :: subAllGo m fuel r

def subAll (m : List Char → Option (List Char)) (l : List Char) : List Char :=
  subAllGo m (l.length + 1) l

/-- `re.sub(r"\.[^.]+$", "", s)`: remove the final extension, i.e. the
last dot together with the non-empty dot-free suffix it introduces. -/
def stripExt (l : List Char) : List Char :=
  let r := l.reverse
  let pre := r.takeWhile (fun c => c != '.')
  match r.drop pre.length with
  | '.' :: tail => if pre.isEmpty then l else tail.reverse
  | _ => l

/-- `_extract_notebook_name` (server/remarkable_sync.py lines 47-65). -/
def extractNotebookName (s : String) : String :=
  match tildeMatch s.toList with
  | some g => String.mk (stripChars g)
  | none =>
    String.mk (stripChars (stripExt (subAll matchPage (subAll matchParen s.toList))))

example : extractNotebookName ("~ focus ~ (12).pdf") = ("focus") := by decide
example : extractNotebookName ("~ focus ~ - page 40.png") = ("focus") := by decide
example : extractNotebookName ("random (2).pdf") = ("random") := by decide
example : extractNotebookName ("my notebook.pdf") = ("my notebook") := by decide
example : extractNotebookName ("~ focus ~.pdf") = ("focus") := by decide
example : extractNotebookName ("random.pdf") = ("random") := by decide
example : extractNotebookName ("focus-11.pdf") = ("focus-11") := by decide
example : extractNotebookName ("~ daily log ~ (3).pdf") = ("daily log") := by decide
example : extractNotebookName ("notes.tar.gz") = ("notes.tar") := by decide
example : extractNotebookName ("notes.tar") = ("notes") := by decide

/-! ## Calendar bucket: `_daily_periodic` (server/remarkable_sync.py)

`_daily_periodic(dt)` evaluates `dt.isocalendar()` and then
`dt.strftime(f"%Y-%m-%d-W{iso_week:02d}-%a")`.  The proleptic-Gregorian
ordinal and the ISO calendar computation below are ported from CPython's
`datetime` module (`_ymd2ord`, `_isoweek1monday`, `date.isocalendar`);
`%a` uses the C-locale three-letter weekday names.  The time of day plays
no part in the formatted result, so a date is modelled as `(y, m, d)`. -/

def isLeapYear (y : Nat) : Bool :=
  y % 4 == 0 && (y % 100 != 0 || y % 400 == 0)

def daysInMonth (y m : Nat) : Nat :=
  if m == 2 then (if isLeapYear y then 29 else 28)
  else if m == 4 || m == 6 || m == 9 || m == 11 then 30
  else 31

def daysBeforeMonth (y m : Nat) : Nat :=
  ((List.range (m - 1)).map (fun i => daysInMonth y (i + 1))).sum

def daysBeforeYear (y : Nat) : Nat :=
  (y - 1) * 365 + (y - 1) / 4 + (y - 1) / 400 - (y - 1) / 100

/-- Proleptic-Gregorian ordinal: day 1 is 0001-01-01 (a Monday). -/
def toOrdinal (y m d : Nat) : Nat :=
  daysBeforeYear y + daysBeforeMonth y m + d

/-- Ordinal of the Monday starting ISO week 1 of `y` (CPython
`_isoweek1monday`). -/
def isoWeek1Monday (y : Nat) : Int :=
  let firstday : Int := toOrdinal y 1 1
  let firstweekday := (firstday + 6) % 7
  let week1monday := firstday - firstweekday
  if firstweekday > 3 then week1monday + 7 else week1monday

/-- CPython `date.isocalendar()`: ISO year, ISO week, ISO weekday. -/
def isoCalendar (y m d : Nat) : Nat × Nat × Nat :=
  let today : Int := toOrdinal y m d
  let w1 := isoWeek1Monday y
  let wk := (today - w1).ediv 7
  let dy := (today - w1).emod 7
  if wk < 0 then
    let w1p := isoWeek1Monday (y - 1)
    ((y - 1), ((today - w1p).ediv 7 + 1).toNat, ((today - w1p).emod 7 + 1).toNat)
  else if wk ≥ 52 ∧ today ≥ isoWeek1Monday (y + 1) then
    (y + 1, 1, (dy + 1).toNat)
  else
    (y, (wk + 1).toNat, (dy + 1).toNat)

/-- C-locale `%a`, indexed by `toOrdinal % 7` (so 1 = Monday, 0 = Sunday). -/
def weekdayAbbrev (w : Nat) : String :=
  match w with
  | 0 => "Sun"
  | 1 => "Mon"
  | 2 => "Tue"
  | 3 => "Wed"
  | 4 => "Thu"
  | 5 => "Fri"
  | _ => "Sat"

def pad2 (n : Nat) : String :=
  if n < 10 then ("0") ++ toString n else toString n

def pad4 (n : Nat) : String :=
  if n < 10 then ("000") ++ toString n
  else if n < 100 then ("00") ++ toString n
  else if n < 1000 then ("0") ++ toString n
  else toString n

/-- `_daily_periodic` (server/remarkable_sync.py lines 68-71). -/
def dailyPeriodic (y m d : Nat) : String :=
  pad4 y ++ ("-") ++ pad2 m ++ ("-") ++ pad2 d ++ ("-W")
    ++ pad2 (isoCalendar y m d).2.1 ++ ("-") ++ weekdayAbbrev (toOrdinal y m d % 7)

/-- The naive Monday-based calendar week of C `strftime %W`, for
contrast with the ISO week: days before the year's first Monday fall in
week 0. -/
def naiveWeekW (y m d : Nat) : Nat :=
  let yday0 := daysBeforeMonth y m + d - 1
  let wd := toOrdinal y m d % 7
  (yday0 + 7 - (if wd == 0 then 6 else wd - 1)) / 7

example : dailyPeriodic 2026 2 8 = ("2026-02-08-W06-Sun") := by decide
example : dailyPeriodic 2026 2 9 = ("2026-02-09-W07-Mon") := by decide
example : dailyPeriodic 2026 1 1 = ("2026-01-01-W01-Thu") := by decide
example : naiveWeekW 2026 2 8 = 5 := by decide

/-! ## Line segmenter: `segment_lines` (server/ocr.py)

A page image is a list of rows of 8-bit grey values.  The code binarises
with `pixel < 180`, sums ink per row, marks a row in-line when its ink
count exceeds `0.02 * max`, collects in-line runs longer than
`min_line_height` as spans `(start, end)`, and then walks the spans
emitting a `None` paragraph marker whenever the gap to the previous span
exceeds the average span height.  The two floating-point comparisons
`p > 0.02 * m` and `gap > total / count` are modelled exactly as the
rational comparisons `50 * p > m` and `gap * count > total`; no claim
touches the representable-boundary cases where binary floating point
could deviate from these.  A crop is represented by its `(start, end)`
row span. -/

def inkCount (row : List Nat) : Nat :=
  (row.filter (fun v => v < 180)).length

def inLineFlags (img : List (List Nat)) : List Bool :=
  let ps := img.map inkCount
  let m := ps.foldr max 0
  ps.map (fun p => if 0 < m then decide (m < 50 * p) else decide (0 < p))

/-- The span-collection loop: `start` tracks an open run, `i` the row
index, and `total` the page height for the final (bottom-touching) run. -/
def spansGo (minH total : Nat) : List Bool → Nat → Option Nat → List (Nat × Nat)
  | [], _, none => []
  | [], _, some s => if minH < total - s then [(s, total)] else []
  | b :: r, i, none =>
    if b then spansGo minH total r (i + 1) (some i)
    else spansGo minH total r (i + 1) none
  | b :: r, i, some s =>
    if b then spansGo minH total r (i + 1) (some s)
    else if minH < i - s then (s, i) :: spansGo minH total r (i + 1) none
    else spansGo minH total r (i + 1) none

def segmentSpans (img : List (List Nat)) (minH : Nat) : List (Nat × Nat) :=
  let flags := inLineFlags img
  spansGo minH flags.length flags 0 none

/-- The emission loop over spans after the first: a `none` marker is
inserted before a span exactly when the gap from the previous span
exceeds the average span height (`gap * count > total`). -/
def emitGo (tot k : Nat) : Nat × Nat → List (Nat × Nat) → List (Option (Nat × Nat))
  | _, [] => []
  | prev, s :: rest =>
    (if tot < (s.1 - prev.2) * k then [none] else []) ++ some s :: emitGo tot k s rest

/-- `segment_lines` (server/ocr.py lines 74-122), with
`min_line_height` passed explicitly (the source default is 15). -/
def segmentLines (img : List (List Nat)) (minH : Nat) : List (Option (Nat × Nat)) :=
  match segmentSpans img minH with
  | [] => []
  | s :: rest =>
    let tot := (((s :: rest).map (fun p => p.2 - p.1)).sum)
    some s :: emitGo tot (rest.length + 1) s rest

/-- Marker counts between consecutive crops of a segmenter output:
`gapsOf out` lists, for each crop after the first, how many `none`
markers immediately precede it. -/
def gapsGo (acc : Nat) : List (Option (Nat × Nat)) → List Nat
  | [] => []
  | none :: r => gapsGo (acc + 1) r
  | some _ :: r => acc :: gapsGo 0 r

def gapsOf : List (Option (Nat × Nat)) → List Nat
  | [] => []
  | none :: r => gapsOf r
  | some _ :: r => gapsGo 0 r

/-- Expected marker indicators, straight from the specified rule: for
each pair of consecutive detected spans, 1 if the gap exceeds the
average span height and 0 otherwise. -/
def gapIndicators (spans : List (Nat × Nat)) : List Nat :=
  let tot := ((spans.map (fun p => p.2 - p.1)).sum)
  let k := spans.length
  (spans.zip spans.tail).map (fun q => if tot < (q.2.1 - q.1.2) * k then 1 else 0)

/-- Structural well-formedness of a segmenter output: it does not start
with a marker, and every marker is immediately followed (hence also
preceded) by a crop. -/
def marksGo : List (Option (Nat × Nat)) → Bool
  | [] => true
  | some _ :: r => marksGo r
  | none :: some _ :: r => marksGo r
  | none :: _ => false

def marksOk : List (Option (Nat × Nat)) → Bool
  | [] => true
  | none :: _ => false
  | some _ :: r => marksGo r

/-- A 20-row blank page (all pixels white). -/
def blankPage : List (List Nat) := List.replicate 20 (List.replicate 5 255)

/-- A page whose only ink is a 5-pixel-tall band, below the 15-pixel
height floor. -/
def thinBandPage : List (List Nat) :=
  List.replicate 8 (List.replicate 5 255)
    ++ List.replicate 5 (List.replicate 5 0)
    ++ List.replicate 8 (List.replicate 5 255)

example : segmentLines blankPage 15 = [] := by decide
example : segmentLines thinBandPage 15 = [] := by decide

/-! ## Change Log and Progress Log (server/remarkable_sync.py)

`_add_log_entry` inserts at the front and truncates to `MAX_LOG_ENTRIES`
(50).  `_append_progress_log` downloads the remote log, splits it into
lines, appends the new line, keeps the last `MAX_PROGRESS_LOG_LINES`
(200), and re-uploads; the remote file is modelled directly as its list
of lines (the upload/splitlines round trip is the identity on messages
without embedded newlines). -/

structure LogEntry where
  fileName : String
  destPath : String
  status : String
deriving DecidableEq

/-- `_add_log_entry` (server/remarkable_sync.py lines 41-44). -/
def addLogEntry (log : List LogEntry) (e : LogEntry) : List LogEntry :=
  (e :: log).take 50

/-- `_append_progress_log` (server/remarkable_sync.py lines 153-177),
restricted to its effect on the remote file's lines: append, keep the
most recent 200. -/
def appendProgressLine (lines : List String) (line : String) : List String :=
  let l := lines ++ [line]
  l.drop (l.length - 200)

/-! ## Remote Store Client: `_dropbox_request` (server/dropbox_proxy.py)

The wrapper adds a bearer header from the stored `access_token`, issues
the request, and on a 401 response with a stored `refresh_token` calls
the OAuth refresh endpoint; on refresh success it persists the new
access token and retries the original request once, otherwise it returns
the original 401 response.  The environment scripts the three possible
responses; the trace records every outbound call and token persistence. -/

structure Tokens where
  accessToken : Option String
  refreshToken : Option String
deriving DecidableEq

inductive RefreshRes where
  | ok (newTok : String)
  | fail (status : Nat)
deriving DecidableEq

structure HttpResp where
  status : Nat
  body : String
deriving DecidableEq

structure ReqEnv where
  first : HttpResp
  refresh : RefreshRes
  second : HttpResp
deriving DecidableEq

inductive ReqEv where
  | apiCall (bearer : String)
  | refreshCall (tok : String)
  | persistTokens (access : Option String)
deriving DecidableEq

def isApi : ReqEv → Bool
  | ReqEv.apiCall _ => true
  | _ => false

def isRefreshEv : ReqEv → Bool
  | ReqEv.refreshCall _ => true
  | _ => false

def bearerOf (t : Tokens) : String := t.accessToken.getD ("")

/-- `_dropbox_request` (server/dropbox_proxy.py lines 50-83): result,
updated credential record, and effect trace. -/
def dropboxRequest (t : Tokens) (env : ReqEnv) : HttpResp × Tokens × List ReqEv :=
  match t.refreshToken with
  | some rt =>
    if env.first.status == 401 then
      match env.refresh with
      | RefreshRes.ok nt =>
        (env.second, { t with accessToken := some nt },
          [ReqEv.apiCall (bearerOf t), ReqEv.refreshCall rt,
           ReqEv.persistTokens (some nt), ReqEv.apiCall nt])
      | RefreshRes.fail _ =>
        (env.first, t, [ReqEv.apiCall (bearerOf t), ReqEv.refreshCall rt])
    else (env.first, t, [ReqEv.apiCall (bearerOf t)])
  | none => (env.first, t, [ReqEv.apiCall (bearerOf t)])

/-! ## Sync Reconciler: `run_sync` (server/remarkable_sync.py lines 265-418)

One reconciliation cycle, embedded over an explicit response
environment: `full` scripts the `list_folder` response, `cont` the
successive `list_folder/continue` responses in call order, and `fes i`
the metadata/copy outcomes for the i-th processed file entry.  The
result carries the aggregate counters, the updated config, the ordered
effect trace, and the list of file-type entries obtained from the
listing.  `_save_remarkable_config` appears as the `saveTokens` trace
event (carrying the cursor value it persists); the assignment
`config["last_sync_cursor"] = new_cursor` before the per-file loop is
the in-memory `cursor` field of the threaded config.  Fire-and-forget
OCR task creation has no bearing on any modelled observable and is
omitted. -/

structure FileEntry where
  name : String
  path : String
  size : Nat
  isFile : Bool
deriving DecidableEq

structure ListPage where
  entries : List FileEntry
  hasMore : Bool
  cursor : Option String
deriving DecidableEq

inductive ListResp where
  | ok (page : ListPage)
  | fail (status : Nat) (text : String)
deriving DecidableEq

/-- Outcome of the `get_metadata` call for one file: a transport
exception, a 200 response whose `size` field defaults to 0 (`found`), or
a non-200 response (`absent`). -/
inductive MetaRes where
  | raised (msg : String)
  | absent
  | found (size : Nat)
deriving DecidableEq

/-- Outcome of the `copy_v2` call for one file: `_copy_file` raises on a
non-200 status, and the transport can raise, so failure carries the
exception message. -/
inductive CopyRes where
  | okCopy
  | failCopy (msg : String)
deriving DecidableEq

structure FileEnv where
  meta : MetaRes
  copy : CopyRes
deriving DecidableEq

inductive SyncEv where
  | ensureFolder (path : String)
  | listCall
  | contCall
  | metaFetch (path : String)
  | copyCall (src dst : String) (autorename : Bool)
  | saveTokens (cursor : Option String)
deriving DecidableEq

def isSave : SyncEv → Bool
  | SyncEv.saveTokens _ => true
  | _ => false

def isCopyEv : SyncEv → Bool
  | SyncEv.copyCall _ _ _ => true
  | _ => false

/-- A per-file processing step touches the remote store through metadata
fetches and copies. -/
def isFileEv : SyncEv → Bool
  | SyncEv.metaFetch _ => true
  | SyncEv.copyCall _ _ _ => true
  | _ => false

structure SyncConfig where
  cursor : Option String
  syncLog : List LogEntry
deriving DecidableEq

structure SyncResults where
  filesCopied : Nat
  filesSkipped : Nat
  errors : List String
  details : List (String × String)
deriving DecidableEq

def emptyResults : SyncResults := ⟨0, 0, [], []⟩

structure SyncOutcome where
  res : SyncResults
  cfg : SyncConfig
  trace : List SyncEv
  listed : List FileEntry
deriving DecidableEq

/-- Substring test used for the `"not_found" in error_detail` check. -/
def hasSub (s pat : String) : Bool :=
  s.toList.tails.any (fun t => pat.toList.isPrefixOf t)

/-- The listing request of `run_sync` (lines 285-306): with a stored
cursor, issue `list_folder/continue`; on a 409 discard the cursor and
fall back to the full `list_folder`.  Returns the response the status
check inspects, the remaining continuation script, and the trace. -/
def initialListing (cur : Option String) (full : ListResp) (cont : List ListResp) :
    ListResp × List ListResp × List SyncEv :=
  match cur with
  | none => (full, cont, [SyncEv.listCall])
  | some _ =>
    match cont with
    | [] => (ListResp.fail 599 ("transport"), [], [SyncEv.contCall])
    | r :: rest =>
      match r with
      | ListResp.fail s _ =>
        if s == 409 then (full, rest, [SyncEv.contCall, SyncEv.listCall])
        else (r, rest, [SyncEv.contCall])
      | ListResp.ok _ => (r, rest, [SyncEv.contCall])

/-- The `has_more` pagination loop (lines 321-334): follow
`list_folder/continue` while the current page reports more, extending
the entry list on a 200 and breaking out of the loop otherwise.  Returns
the accumulated file entries, the last successfully decoded page (whose
cursor line 337 reads), and the trace. -/
def paginate : List ListResp → ListPage → List FileEntry →
    List FileEntry × ListPage × List SyncEv
  | script, data, acc =>
    if data.hasMore then
      match script with
      | [] => (acc, data, [])
      | ListResp.ok p :: rest =>
        let r := paginate rest p (acc ++ p.entries.filter (fun e => e.isFile))
        (r.1, r.2.1, SyncEv.contCall :: r.2.2)
      | ListResp.fail _ _ :: _ => (acc, data, [SyncEv.contCall])
    else (acc, data, [])

/-- The copy branch of the per-file body (lines 372-400): ensure the
subfolder, server-side copy with auto-rename, and record `copied` or
`copied (updated)`; a failing copy lands in the per-file exception
handler (lines 401-415). -/
def processCopy (cfg : SyncConfig) (res : SyncResults) (e : FileEntry)
    (destFolder destPath : String) (fe : FileEnv) (sizeChanged : Bool) :
    SyncConfig × SyncResults × List SyncEv :=
  let status := if sizeChanged then ("copied (updated)") else ("copied")
  let tr := [SyncEv.metaFetch destPath, SyncEv.ensureFolder destFolder,
             SyncEv.copyCall e.path destPath true]
  match fe.copy with
  | CopyRes.okCopy =>
    ({ cfg with syncLog := addLogEntry cfg.syncLog ⟨e.name, destPath, status⟩ },
     { res with filesCopied := res.filesCopied + 1,
                details := res.details ++ [(e.name, status)] },
     tr)
  | CopyRes.failCopy msg =>
    ({ cfg with syncLog := addLogEntry cfg.syncLog ⟨e.name, destPath, ("error")⟩ },
     { res with errors := res.errors ++ [e.name ++ (": ") ++ msg],
                details := res.details ++ [(e.name, ("error"))] },
     tr)

/-- The per-file body of the copy loop (lines 345-415). -/
def processEntry (dest daily : String) (cfg : SyncConfig) (res : SyncResults)
    (e : FileEntry) (fe : FileEnv) : SyncConfig × SyncResults × List SyncEv :=
  let destFolder := dest ++ ("/") ++ extractNotebookName e.name ++ ("/") ++ daily
  let destPath := destFolder ++ ("/") ++ e.name
  match fe.meta with
  | MetaRes.raised msg =>
    ({ cfg with syncLog := addLogEntry cfg.syncLog ⟨e.name, destPath, ("error")⟩ },
     { res with errors := res.errors ++ [e.name ++ (": ") ++ msg],
                details := res.details ++ [(e.name, ("error"))] },
     [SyncEv.metaFetch destPath])
  | MetaRes.absent => processCopy cfg res e destFolder destPath fe false
  | MetaRes.found n =>
    if n == e.size then
      ({ cfg with syncLog := addLogEntry cfg.syncLog ⟨e.name, destPath, ("skipped")⟩ },
       { res with filesSkipped := res.filesSkipped + 1,
                  details := res.details ++ [(e.name, ("skipped"))] },
       [SyncEv.metaFetch destPath])
    else processCopy cfg res e destFolder destPath fe true

/-- The copy loop over all listed file entries, indexed so that `fes i`
scripts the i-th entry's outcomes. -/
def processAll (dest daily : String) (fes : Nat → FileEnv) :
    Nat → List FileEntry → SyncConfig → SyncResults →
    SyncConfig × SyncResults × List SyncEv
  | _, [], cfg, res => (cfg, res, [])
  | i, e :: rest, cfg, res =>
    let s1 := processEntry dest daily cfg res e (fes i)
    let s2 := processAll dest daily fes (i + 1) rest s1.1 s1.2.1
    (s2.1, s2.2.1, s1.2.2 ++ s2.2.2)

/-- The body of `run_sync` after a listing response has been obtained
(lines 308-418): the not-yet-existing source folder is zero work, any
other listing failure is recorded as the single error of the cycle, and
otherwise the entries are paginated, the new cursor (if the final page
provides one) is written into the in-memory config, every file entry is
processed, and the config is persisted once at the end. -/
def runSyncCore (cfg : SyncConfig) (dest daily : String) (fes : Nat → FileEnv)
    (resp : ListResp) (rest : List ListResp) : SyncOutcome :=
  match resp with
  | ListResp.fail s t =>
    if s == 409 && hasSub t ("not_found") then ⟨emptyResults, cfg, [], []⟩
    else
      ⟨{ emptyResults with errors := [("Failed to list source folder: ") ++ t] },
       cfg, [], []⟩
  | ListResp.ok page =>
    let pg := paginate rest page (page.entries.filter (fun e => e.isFile))
    let cfg1 :=
      match pg.2.1.cursor with
      | some c => { cfg with cursor := some c }
      | none => cfg
    let pr := processAll dest daily fes 0 pg.1 cfg1 emptyResults
    ⟨pr.2.1, pr.1, pg.2.2 ++ pr.2.2 ++ [SyncEv.saveTokens pr.1.cursor], pg.1⟩

/-- `run_sync` (server/remarkable_sync.py lines 265-418).  Returns
`none` for the "not connected to Dropbox" early exit, otherwise the
aggregate outcome. -/
def runSync (cfg : SyncConfig) (dest daily : String) (full : ListResp)
    (cont : List ListResp) (fes : Nat → FileEnv) (hasToken : Bool) :
    Option SyncOutcome :=
  if hasToken then
    let il := initialListing cfg.cursor full cont
    let core := runSyncCore cfg dest daily fes il.1 il.2.1
    some { core with trace := SyncEv.ensureFolder dest :: (il.2.2 ++ core.trace) }
  else none

/-! ## Helper lemmas -/

theorem addLogEntry_length (log : List LogEntry) (e : LogEntry) :
    (addLogEntry log e).length ≤ 50 := by
  simp only [addLogEntry, List.length_take]
  exact Nat.min_le_left _ _

theorem addLogEntry_head (log : List LogEntry) (e : LogEntry) :
    (addLogEntry log e).head? = some e := rfl

/-- One loop iteration settles exactly one file: it bumps exactly one of
the three aggregate buckets. -/
theorem processEntry_sums (dest daily : String) (cfg : SyncConfig) (res : SyncResults)
    (e : FileEntry) (fe : FileEnv) :
    (processEntry dest daily cfg res e fe).2.1.filesCopied
      + (processEntry dest daily cfg res e fe).2.1.filesSkipped
      + (processEntry dest daily cfg res e fe).2.1.errors.length
    = res.filesCopied + res.filesSkipped + res.errors.length + 1 := by
  rcases fe with ⟨meta, copyr⟩
  cases meta with
  | raised msg => simp [processEntry, List.length_append]; omega
  | absent =>
    cases copyr <;> simp [processEntry, processCopy, List.length_append] <;> omega
  | found n =>
    by_cases h : (n == e.size) = true <;>
      cases copyr <;>
      simp [processEntry, processCopy, h, List.length_append] <;> omega

theorem processAll_sums (dest daily : String) (fes : Nat → FileEnv) :
    ∀ (es : List FileEntry) (i : Nat) (cfg : SyncConfig) (res : SyncResults),
    (processAll dest daily fes i es cfg res).2.1.filesCopied
      + (processAll dest daily fes i es cfg res).2.1.filesSkipped
      + (processAll dest daily fes i es cfg res).2.1.errors.length
    = res.filesCopied + res.filesSkipped + res.errors.length + es.length := by
  intro es
  induction es with
  | nil => intro i cfg res; simp [processAll]
  | cons e rest ih =>
    intro i cfg res
    simp only [processAll]
    rw [ih]
    have h := processEntry_sums dest daily cfg res e (fes i)
    simp [List.length_cons]
    omega

/-- Any error string a loop iteration records names the file it was
processing. -/
theorem processEntry_errors (dest daily : String) (cfg : SyncConfig) (res : SyncResults)
    (e : FileEntry) (fe : FileEnv) :
    ∃ t, (processEntry dest daily cfg res e fe).2.1.errors = res.errors ++ t
      ∧ ∀ m ∈ t, ∃ em, m = e.name ++ (": ") ++ em := by
  rcases fe with ⟨meta, copyr⟩
  cases meta with
  | raised msg =>
    refine ⟨[e.name ++ (": ") ++ msg], by simp [processEntry], ?_⟩
    intro m hm
    exact ⟨msg, by simpa using hm⟩
  | absent =>
    cases copyr with
    | okCopy => exact ⟨[], by simp [processEntry, processCopy], by simp⟩
    | failCopy msg =>
      refine ⟨[e.name ++ (": ") ++ msg], by simp [processEntry, processCopy], ?_⟩
      intro m hm
      exact ⟨msg, by simpa using hm⟩
  | found n =>
    by_cases h : (n == e.size) = true
    · exact ⟨[], by simp [processEntry, h], by simp⟩
    · cases copyr with
      | okCopy => exact ⟨[], by simp [processEntry, processCopy, h], by simp⟩
      | failCopy msg =>
        refine ⟨[e.name ++ (": ") ++ msg], by simp [processEntry, processCopy, h], ?_⟩
        intro m hm
        exact ⟨msg, by simpa using hm⟩

theorem processAll_errors (dest daily : String) (fes : Nat → FileEnv) :
    ∀ (es : List FileEntry) (i : Nat) (cfg : SyncConfig) (res : SyncResults),
    ∀ m ∈ (processAll dest daily fes i es cfg res).2.1.errors,
      m ∈ res.errors ∨ ∃ e ∈ es, ∃ em, m = e.name ++ (": ") ++ em := by
  intro es
  induction es with
  | nil => intro i cfg res m hm; simp [processAll] at hm; exact Or.inl hm
  | cons e rest ih =>
    intro i cfg res m hm
    simp only [processAll] at hm
    rcases ih _ _ _ m hm with h | ⟨e2, he2, em, hem⟩
    · obtain ⟨t, ht, hall⟩ := processEntry_errors dest daily cfg res e (fes i)
      rw [ht] at h
      rcases List.mem_append.mp h with h1 | h2
      · exact Or.inl h1
      · exact Or.inr ⟨e, by simp, hall m h2⟩
    · exact Or.inr ⟨e2, by simp [he2], em, hem⟩

theorem processEntry_no_save (dest daily : String) (cfg : SyncConfig) (res : SyncResults)
    (e : FileEntry) (fe : FileEnv) :
    ∀ ev ∈ (processEntry dest daily cfg res e fe).2.2, isSave ev = false := by
  rcases fe with ⟨meta, copyr⟩
  cases meta with
  | raised msg => intro ev hev; simp [processEntry] at hev; simp [hev, isSave]
  | absent =>
    cases copyr <;>
      (intro ev hev; simp [processEntry, processCopy] at hev;
       rcases hev with rfl | rfl | rfl <;> rfl)
  | found n =>
    by_cases h : (n == e.size) = true
    · intro ev hev; simp [processEntry, h] at hev; simp [hev, isSave]
    · cases copyr <;>
        (intro ev hev; simp [processEntry, processCopy, h] at hev;
         rcases hev with rfl | rfl | rfl <;> rfl)

theorem processAll_no_save (dest daily : String) (fes : Nat → FileEnv) :
    ∀ (es : List FileEntry) (i : Nat) (cfg : SyncConfig) (res : SyncResults),
    ∀ ev ∈ (processAll dest daily fes i es cfg res).2.2, isSave ev = false := by
  intro es
  induction es with
  | nil => intro i cfg res ev hev; simp [processAll] at hev
  | cons e rest ih =>
    intro i cfg res ev hev
    simp only [processAll] at hev
    rcases List.mem_append.mp hev with h | h
    · exact processEntry_no_save dest daily cfg res e (fes i) ev h
    · exact ih _ _ _ ev h

theorem processEntry_cursor (dest daily : String) (cfg : SyncConfig) (res : SyncResults)
    (e : FileEntry) (fe : FileEnv) :
    (processEntry dest daily cfg res e fe).1.cursor = cfg.cursor := by
  rcases fe with ⟨meta, copyr⟩
  cases meta with
  | raised msg => rfl
  | absent => cases copyr <;> rfl
  | found n =>
    by_cases h : (n == e.size) = true <;> cases copyr <;> simp [processEntry, processCopy, h]

theorem processAll_cursor (dest daily : String) (fes : Nat → FileEnv) :
    ∀ (es : List FileEntry) (i : Nat) (cfg : SyncConfig) (res : SyncResults),
    (processAll dest daily fes i es cfg res).1.cursor = cfg.cursor := by
  intro es
  induction es with
  | nil => intro i cfg res; rfl
  | cons e rest ih =>
    intro i cfg res
    simp only [processAll]
    rw [ih, processEntry_cursor]

theorem paginate_events (script : List ListResp) :
    ∀ (data : ListPage) (acc : List FileEntry),
    ∀ ev ∈ (paginate script data acc).2.2, ev = SyncEv.contCall := by
  induction script with
  | nil =>
    intro data acc ev hev
    unfold paginate at hev
    rcases h : data.hasMore <;> simp [h] at hev
  | cons r rest ih =>
    intro data acc ev hev
    unfold paginate at hev
    rcases h : data.hasMore with _ | _
    · simp [h] at hev
    · rw [h] at hev
      cases r with
      | ok p =>
        simp at hev
        rcases hev with rfl | hev
        · rfl
        · exact ih _ _ ev hev
      | fail s t => simp at hev; exact hev

theorem initialListing_events (cur : Option String) (full : ListResp)
    (cont : List ListResp) :
    ∀ ev ∈ (initialListing cur full cont).2.2,
      ev = SyncEv.listCall ∨ ev = SyncEv.contCall := by
  cases cur with
  | none => intro ev hev; simp [initialListing] at hev; exact Or.inl hev
  | some c =>
    cases cont with
    | nil => intro ev hev; simp [initialListing] at hev; exact Or.inr hev
    | cons r rest =>
      cases r with
      | ok p => intro ev hev; simp [initialListing] at hev; exact Or.inr hev
      | fail s t =>
        intro ev hev
        by_cases h : (s == 409) = true <;> simp [initialListing, h] at hev
        · rcases hev with rfl | rfl
          · exact Or.inr rfl
          · exact Or.inl rfl
        · exact Or.inr hev

/-- A failing continuation response ends the pagination loop at once:
no further entries are gathered and the current page stays current. -/
theorem paginate_fail_stop (c : Nat) (t : String) (s2 : List ListResp)
    (data : ListPage) (acc : List FileEntry) (h : data.hasMore = true) :
    paginate (ListResp.fail c t :: s2) data acc = (acc, data, [SyncEv.contCall]) := by
  unfold paginate
  simp [h]

/-- Everything scripted after the first failing continuation response is
never consulted. -/
theorem paginate_fail_indep (c : Nat) (t : String) :
    ∀ (s1 s2 : List ListResp) (data : ListPage) (acc : List FileEntry),
    paginate (s1 ++ ListResp.fail c t :: s2) data acc
      = paginate (s1 ++ [ListResp.fail c t]) data acc := by
  intro s1
  induction s1 with
  | nil =>
    intro s2 data acc
    cases h : data.hasMore <;> simp [paginate, h]
  | cons r rest ih =>
    intro s2 data acc
    cases h : data.hasMore
    · unfold paginate; simp [h]
    · cases r with
      | ok p => unfold paginate; simp [h, ih]
      | fail a b => unfold paginate; simp [h]

/-! ## Claim theorems -/

/-- A concrete cycle for claim C1: no stored cursor, a single-page
listing that provides a cursor, one file entry that is copied. -/
def c1Page : ListPage :=
  ⟨[⟨("note.pdf"), ("/src/note.pdf"), 1024, true⟩], false, some ("cursor-123")⟩

def c1Out : Option SyncOutcome :=
  runSync ⟨none, []⟩ ("/Dest") ("2026-02-08-W06-Sun") (ListResp.ok c1Page) []
    (fun _ => ⟨MetaRes.absent, CopyRes.okCopy⟩) true

def c1Val : SyncOutcome := c1Out.getD ⟨emptyResults, ⟨none, []⟩, [], []⟩

/-- C1, counterexample: in the cycle `c1Out` the final listing page
provides the cursor `cursor-123` (the persisted `saveTokens` event
carries it), yet the first per-file event (the metadata fetch) occurs
strictly before the first and only durable save — the cursor is NOT
persisted to durable storage before per-file processing, refuting the
claim as stated. -/
theorem run_sync_cursor_not_durable_before_files :
    (c1Out.map (fun o =>
      decide (SyncEv.saveTokens (some ("cursor-123")) ∈ o.trace
        ∧ o.trace.findIdx isFileEv < o.trace.findIdx isSave))) = some true := by
  decide

/-- C1, amended: in every cycle whose listing succeeds, `run_sync`
records the new cursor from the final page in the in-memory config
before the per-file loop, but writes it to durable storage exactly once,
as the last effect of the cycle, after all per-file processing — so a
crash mid-batch loses the cursor advance. -/
theorem run_sync_cursor_persist_order (cfg : SyncConfig) (dest daily : String)
    (full : ListResp) (cont : List ListResp) (fes : Nat → FileEnv)
    (p : ListPage) (rest : List ListResp) (tl : List SyncEv) (o : SyncOutcome)
    (hok : initialListing cfg.cursor full cont = (ListResp.ok p, rest, tl))
    (hrun : runSync cfg dest daily full cont fes true = some o) :
    o.trace.getLast? = some (SyncEv.saveTokens o.cfg.cursor)
    ∧ o.trace.filter isSave = [SyncEv.saveTokens o.cfg.cursor]
    ∧ (∀ c, (paginate rest p (p.entries.filter (fun e => e.isFile))).2.1.cursor = some c →
        o.cfg.cursor = some c) := by
  simp only [runSync, if_true, hok, runSyncCore, Option.some.injEq] at hrun
  subst hrun
  set pg := paginate rest p (p.entries.filter (fun e => e.isFile)) with hpg
  set cfg1 := (match pg.2.1.cursor with
    | some c => { cfg with cursor := some c }
    | none => cfg) with hcfg1
  set pr := processAll dest daily fes 0 pg.1 cfg1 emptyResults with hpr
  refine ⟨?_, ?_, ?_⟩
  · show (SyncEv.ensureFolder dest ::
      (tl ++ (pg.2.2 ++ pr.2.2 ++ [SyncEv.saveTokens pr.1.cursor]))).getLast? = _
    rw [show SyncEv.ensureFolder dest ::
        (tl ++ (pg.2.2 ++ pr.2.2 ++ [SyncEv.saveTokens pr.1.cursor]))
      = (SyncEv.ensureFolder dest :: (tl ++ (pg.2.2 ++ pr.2.2)))
          ++ [SyncEv.saveTokens pr.1.cursor] by simp]
    exact List.getLast?_concat _
  · show (SyncEv.ensureFolder dest ::
      (tl ++ (pg.2.2 ++ pr.2.2 ++ [SyncEv.saveTokens pr.1.cursor]))).filter isSave = _
    have h1 : tl.filter isSave = [] := by
      rw [List.filter_eq_nil_iff]
      intro a ha
      rcases initialListing_events cfg.cursor full cont a (by rw [hok]; exact ha) with rfl | rfl <;> simp [isSave]
    have h2 : pg.2.2.filter isSave = [] := by
      rw [List.filter_eq_nil_iff]
      intro a ha
      rw [paginate_events rest p _ a ha]
      simp [isSave]
    have h3 : pr.2.2.filter isSave = [] := by
      rw [List.filter_eq_nil_iff]
      intro a ha
      simp [processAll_no_save dest daily fes pg.1 0 cfg1 emptyResults a ha]
    simp [List.filter_append, h1, h2, h3, isSave]
  · intro c hc
    show pr.1.cursor = some c
    rw [hpr, processAll_cursor, hcfg1, hc]

/-- C1 amended, witness: the ordering facts instantiated on the concrete
cycle `c1Out`. -/
theorem run_sync_cursor_persist_order_witness :
    c1Val.trace.getLast? = some (SyncEv.saveTokens c1Val.cfg.cursor)
    ∧ c1Val.trace.filter isSave = [SyncEv.saveTokens c1Val.cfg.cursor]
    ∧ (∀ c, (paginate [] c1Page (c1Page.entries.filter (fun e => e.isFile))).2.1.cursor = some c →
        c1Val.cfg.cursor = some c) :=
  run_sync_cursor_persist_order ⟨none, []⟩ ("/Dest") ("2026-02-08-W06-Sun")
    (ListResp.ok c1Page) [] (fun _ => ⟨MetaRes.absent, CopyRes.okCopy⟩)
    c1Page [] [SyncEv.listCall] c1Val rfl rfl

/-- A concrete cycle for claim C2: the folder listing itself fails with
a plain 500. -/
def c2Out : Option SyncOutcome :=
  runSync ⟨none, []⟩ ("/Dest") ("2026-02-08-W06-Sun") (ListResp.fail 500 ("boom")) []
    (fun _ => ⟨MetaRes.absent, CopyRes.okCopy⟩) true

/-- C2, counterexample: when the listing request fails outright,
`run_sync` still returns its aggregate result, with one recorded error
and zero file entries obtained from the listing — so
`files_copied + files_skipped + len(errors) = 1 ≠ 0`, refuting the
claimed identity for that cycle. -/
theorem run_sync_counts_counterexample :
    (c2Out.map (fun o =>
      decide (o.res.filesCopied + o.res.filesSkipped + o.res.errors.length = 1
        ∧ o.listed.length = 0
        ∧ o.res.errors = [("Failed to list source folder: boom")]))) = some true := by
  decide

/-- C2, amended: in every reconciliation cycle whose folder listing
succeeds, the returned counts satisfy
`files_copied + files_skipped + len(errors) = number of file-type
entries obtained from the listing`.  (When the listing itself fails
non-recoverably, the cycle instead records exactly one listing error
and lists no entries.) -/
theorem run_sync_count_conservation (cfg : SyncConfig) (dest daily : String)
    (full : ListResp) (cont : List ListResp) (fes : Nat → FileEnv)
    (p : ListPage) (rest : List ListResp) (tl : List SyncEv) (o : SyncOutcome)
    (hok : initialListing cfg.cursor full cont = (ListResp.ok p, rest, tl))
    (hrun : runSync cfg dest daily full cont fes true = some o) :
    o.res.filesCopied + o.res.filesSkipped + o.res.errors.length = o.listed.length := by
  simp only [runSync, if_true, hok, runSyncCore, Option.some.injEq] at hrun
  subst hrun
  simpa [emptyResults] using processAll_sums dest daily fes _ 0 _ emptyResults

/-- C2 amended, witness: a successful two-entry cycle in which one file
copies and one file errors; the counts sum to the two listed entries. -/
def c2wPage : ListPage :=
  ⟨[⟨("a.pdf"), ("/src/a.pdf"), 7, true⟩, ⟨("b.pdf"), ("/src/b.pdf"), 9, true⟩],
   false, some ("cw")⟩

def c2wEnvs : Nat → FileEnv := fun i =>
  if i == 0 then ⟨MetaRes.absent, CopyRes.okCopy⟩
  else ⟨MetaRes.raised ("timeout"), CopyRes.okCopy⟩

def c2wVal : SyncOutcome :=
  (runSync ⟨none, []⟩ ("/Dest") ("2026-02-08-W06-Sun") (ListResp.ok c2wPage) []
    c2wEnvs true).getD ⟨emptyResults, ⟨none, []⟩, [], []⟩

theorem run_sync_count_conservation_witness :
    c2wVal.res.filesCopied + c2wVal.res.filesSkipped + c2wVal.res.errors.length
      = c2wVal.listed.length :=
  run_sync_count_conservation ⟨none, []⟩ ("/Dest") ("2026-02-08-W06-Sun")
    (ListResp.ok c2wPage) [] c2wEnvs c2wPage [] [SyncEv.listCall] c2wVal rfl rfl

/-- C3, counterexample: `_extract_notebook_name` is not idempotent.  The
extension-stripping step removes one extension per application, so
`"notes.tar.gz"` maps to `"notes.tar"`, which maps again to `"notes"` —
applying the function to its own output does not return the output
unchanged. -/
theorem extract_notebook_name_not_idempotent :
    extractNotebookName (extractNotebookName ("notes.tar.gz"))
      ≠ extractNotebookName ("notes.tar.gz") := by
  decide

/-- C3, amended: `_extract_notebook_name` is total and deterministic (it
is a pure function of its input string), the four specified mappings
hold, and the function is idempotent on each of those inputs — but it is
not idempotent on all inputs (see the counterexample). -/
theorem extract_notebook_name_examples :
    extractNotebookName ("~ focus ~ (12).pdf") = ("focus")
    ∧ extractNotebookName ("~ focus ~ - page 40.png") = ("focus")
    ∧ extractNotebookName ("random (2).pdf") = ("random")
    ∧ extractNotebookName ("my notebook.pdf") = ("my notebook")
    ∧ extractNotebookName (extractNotebookName ("~ focus ~ (12).pdf"))
        = extractNotebookName ("~ focus ~ (12).pdf")
    ∧ extractNotebookName (extractNotebookName ("~ focus ~ - page 40.png"))
        = extractNotebookName ("~ focus ~ - page 40.png")
    ∧ extractNotebookName (extractNotebookName ("random (2).pdf"))
        = extractNotebookName ("random (2).pdf")
    ∧ extractNotebookName (extractNotebookName ("my notebook.pdf"))
        = extractNotebookName ("my notebook.pdf") := by
  decide

/-- C4: `_dropbox_request` on a 401 first response with a stored refresh
token issues exactly one refresh call; on refresh success it persists
the new access token and retries the original request exactly once with
the new bearer; on refresh failure it returns the original 401 response
and credential record unmodified; and no execution of the wrapper ever
issues the original request more than twice. -/
theorem dropbox_request_refresh (t : Tokens) (env : ReqEnv) (rt : String)
    (h401 : env.first.status = 401) (hrt : t.refreshToken = some rt) :
    ((dropboxRequest t env).2.2.filter isRefreshEv).length = 1
    ∧ (∀ nt, env.refresh = RefreshRes.ok nt →
        (dropboxRequest t env).1 = env.second
        ∧ (dropboxRequest t env).2.1.accessToken = some nt
        ∧ ReqEv.persistTokens (some nt) ∈ (dropboxRequest t env).2.2
        ∧ (dropboxRequest t env).2.2.filter isApi
            = [ReqEv.apiCall (bearerOf t), ReqEv.apiCall nt])
    ∧ (∀ s, env.refresh = RefreshRes.fail s →
        (dropboxRequest t env).1 = env.first
        ∧ (dropboxRequest t env).2.1 = t
        ∧ (dropboxRequest t env).2.2.filter isApi = [ReqEv.apiCall (bearerOf t)])
    ∧ (∀ (t2 : Tokens) (e2 : ReqEnv),
        ((dropboxRequest t2 e2).2.2.filter isApi).length ≤ 2) := by
  have hb : (env.first.status == 401) = true := by simp [h401]
  refine ⟨?_, ?_, ?_, ?_⟩
  · cases hr : env.refresh <;>
      simp [dropboxRequest, hrt, hb, hr, isRefreshEv, isApi]
  · intro nt hr
    simp [dropboxRequest, hrt, hb, hr, isRefreshEv, isApi]
  · intro s hr
    simp [dropboxRequest, hrt, hb, hr, isRefreshEv, isApi]
  · intro t2 e2
    cases h2 : t2.refreshToken with
    | none => simp [dropboxRequest, h2, isApi]
    | some rt2 =>
      by_cases hs : (e2.first.status == 401) = true
      · cases hr : e2.refresh <;> simp [dropboxRequest, h2, hs, hr, isApi]
      · simp [dropboxRequest, h2, hs, isApi]

def c4Tok : Tokens := ⟨some ("old-token"), some ("refresh-token")⟩

def c4Env : ReqEnv := ⟨⟨401, ("expired")⟩, RefreshRes.ok ("new-token"), ⟨200, ("ok")⟩⟩

/-- C4, witness: the refresh behaviour instantiated on a concrete 401
response with a successful refresh. -/
theorem dropbox_request_refresh_witness :
    ((dropboxRequest c4Tok c4Env).2.2.filter isRefreshEv).length = 1
    ∧ (∀ nt, c4Env.refresh = RefreshRes.ok nt →
        (dropboxRequest c4Tok c4Env).1 = c4Env.second
        ∧ (dropboxRequest c4Tok c4Env).2.1.accessToken = some nt
        ∧ ReqEv.persistTokens (some nt) ∈ (dropboxRequest c4Tok c4Env).2.2
        ∧ (dropboxRequest c4Tok c4Env).2.2.filter isApi
            = [ReqEv.apiCall (bearerOf c4Tok), ReqEv.apiCall nt])
    ∧ (∀ s, c4Env.refresh = RefreshRes.fail s →
        (dropboxRequest c4Tok c4Env).1 = c4Env.first
        ∧ (dropboxRequest c4Tok c4Env).2.1 = c4Tok
        ∧ (dropboxRequest c4Tok c4Env).2.2.filter isApi = [ReqEv.apiCall (bearerOf c4Tok)])
    ∧ (∀ (t2 : Tokens) (e2 : ReqEnv),
        ((dropboxRequest t2 e2).2.2.filter isApi).length ≤ 2) :=
  dropbox_request_refresh c4Tok c4Env ("refresh-token") rfl rfl

/-- The decision table of the specification for one file entry: absent
destination metadata means `copied`, equal size means `skipped`, and a
differing size means `copied (updated)`. -/
def specStatus (destMeta : Option Nat) (srcSize : Nat) : String :=
  match destMeta with
  | none => ("copied")
  | some n => if n = srcSize then ("skipped") else ("copied (updated)")

/-- The metadata outcome corresponding to a destination state without a
transport exception. -/
def metaOf : Option Nat → MetaRes
  | none => MetaRes.absent
  | some n => MetaRes.found n

/-- C5: a file entry processed without exception follows the
change-detection table: the recorded detail and front log entry carry
the table's status for the observed destination metadata; a skip
performs no copy call; the other two rows perform a server-side copy
with auto-rename to the routed destination path. -/
theorem process_entry_change_detection (dest daily : String) (cfg : SyncConfig)
    (res : SyncResults) (e : FileEntry) (fe : FileEnv) (dm : Option Nat)
    (hm : fe.meta = metaOf dm)
    (hc : specStatus dm e.size ≠ ("skipped") → fe.copy = CopyRes.okCopy) :
    (processEntry dest daily cfg res e fe).2.1.details
        = res.details ++ [(e.name, specStatus dm e.size)]
    ∧ (processEntry dest daily cfg res e fe).1.syncLog.head?
        = some ⟨e.name,
            dest ++ ("/") ++ extractNotebookName e.name ++ ("/") ++ daily
              ++ ("/") ++ e.name,
            specStatus dm e.size⟩
    ∧ (specStatus dm e.size = ("skipped") →
        (processEntry dest daily cfg res e fe).2.1.filesSkipped = res.filesSkipped + 1
        ∧ (processEntry dest daily cfg res e fe).2.1.filesCopied = res.filesCopied
        ∧ ∀ ev ∈ (processEntry dest daily cfg res e fe).2.2, isCopyEv ev = false)
    ∧ (specStatus dm e.size ≠ ("skipped") →
        (processEntry dest daily cfg res e fe).2.1.filesCopied = res.filesCopied + 1
        ∧ (processEntry dest daily cfg res e fe).2.1.filesSkipped = res.filesSkipped
        ∧ SyncEv.copyCall e.path
            (dest ++ ("/") ++ extractNotebookName e.name ++ ("/") ++ daily
              ++ ("/") ++ e.name) true
            ∈ (processEntry dest daily cfg res e fe).2.2) := by
  cases dm with
  | none =>
    have hcopy : fe.copy = CopyRes.okCopy := hc (by simp only [specStatus]; decide)
    refine ⟨?_, ?_, ?_, ?_⟩ <;>
      simp [processEntry, processCopy, hm, hcopy, metaOf, specStatus,
        addLogEntry_head, isCopyEv]
  | some n =>
    by_cases h : n = e.size
    · subst h
      refine ⟨?_, ?_, ?_, ?_⟩ <;>
        simp [processEntry, hm, metaOf, specStatus, addLogEntry_head, isCopyEv]
    · have hcopy : fe.copy = CopyRes.okCopy :=
        hc (by simp only [specStatus, if_neg h]; decide)
      refine ⟨?_, ?_, ?_, ?_⟩ <;>
        simp [processEntry, processCopy, hm, hcopy, metaOf, specStatus, h,
          addLogEntry_head, isCopyEv]

def c5Entry : FileEntry := ⟨("note.pdf"), ("/src/note.pdf"), 1024, true⟩

def c5Env : FileEnv := ⟨MetaRes.found 999, CopyRes.okCopy⟩

/-- C5, witness: the decision table instantiated on a destination whose
size differs from the source (the `copied (updated)` row). -/
theorem process_entry_change_detection_witness :
    (processEntry ("/Dest") ("day") ⟨none, []⟩ emptyResults c5Entry c5Env).2.1.details
        = emptyResults.details ++ [(c5Entry.name, specStatus (some 999) c5Entry.size)]
    ∧ (processEntry ("/Dest") ("day") ⟨none, []⟩ emptyResults c5Entry c5Env).1.syncLog.head?
        = some ⟨c5Entry.name,
            ("/Dest") ++ ("/") ++ extractNotebookName c5Entry.name ++ ("/") ++ ("day")
              ++ ("/") ++ c5Entry.name,
            specStatus (some 999) c5Entry.size⟩
    ∧ (specStatus (some 999) c5Entry.size = ("skipped") →
        (processEntry ("/Dest") ("day") ⟨none, []⟩ emptyResults c5Entry c5Env).2.1.filesSkipped
            = emptyResults.filesSkipped + 1
        ∧ (processEntry ("/Dest") ("day") ⟨none, []⟩ emptyResults c5Entry c5Env).2.1.filesCopied
            = emptyResults.filesCopied
        ∧ ∀ ev ∈ (processEntry ("/Dest") ("day") ⟨none, []⟩ emptyResults c5Entry c5Env).2.2,
            isCopyEv ev = false)
    ∧ (specStatus (some 999) c5Entry.size ≠ ("skipped") →
        (processEntry ("/Dest") ("day") ⟨none, []⟩ emptyResults c5Entry c5Env).2.1.filesCopied
            = emptyResults.filesCopied + 1
        ∧ (processEntry ("/Dest") ("day") ⟨none, []⟩ emptyResults c5Entry c5Env).2.1.filesSkipped
            = emptyResults.filesSkipped
        ∧ SyncEv.copyCall c5Entry.path
            (("/Dest") ++ ("/") ++ extractNotebookName c5Entry.name ++ ("/") ++ ("day")
              ++ ("/") ++ c5Entry.name) true
            ∈ (processEntry ("/Dest") ("day") ⟨none, []⟩ emptyResults c5Entry c5Env).2.2) :=
  process_entry_change_detection ("/Dest") ("day") ⟨none, []⟩ emptyResults
    c5Entry c5Env (some 999) rfl (fun _ => rfl)




/-- C6: `_daily_periodic` formats every date as
`YYYY-MM-DD-W<ISO week, zero-padded to two digits>-<3-letter weekday>`,
where the week component is the ISO-8601 week number computed by
`isocalendar` (week 1 contains the year's first Thursday) — which at
2026-02-08 differs from the naive Monday-based calendar week (`%W`
yields 5, the ISO week is 6); in particular the two specified example
dates format as stated. -/
theorem daily_periodic_bucket :
    dailyPeriodic 2026 2 8 = ("2026-02-08-W06-Sun")
    ∧ dailyPeriodic 2026 2 9 = ("2026-02-09-W07-Mon")
    ∧ (∀ y m d : Nat, dailyPeriodic y m d =
        pad4 y ++ ("-") ++ pad2 m ++ ("-") ++ pad2 d ++ ("-W")
          ++ pad2 (isoCalendar y m d).2.1 ++ ("-")
          ++ weekdayAbbrev (toOrdinal y m d % 7))
    ∧ (isoCalendar 2026 2 8).2.1 = 6
    ∧ naiveWeekW 2026 2 8 = 5
    ∧ (isoCalendar 2026 2 8).2.1 ≠ naiveWeekW 2026 2 8 := by
  refine ⟨by decide, by decide, fun y m d => rfl, by decide, by decide, by decide⟩

theorem emitGo_filterMap (tot k : Nat) :
    ∀ (rest : List (Nat × Nat)) (prev : Nat × Nat),
    (emitGo tot k prev rest).filterMap id = rest := by
  intro rest
  induction rest with
  | nil => intro prev; simp [emitGo]
  | cons s r ih =>
    intro prev
    by_cases h : tot < (s.1 - prev.2) * k <;> simp [emitGo, h, ih]

theorem emitGo_gaps (tot k : Nat) :
    ∀ (rest : List (Nat × Nat)) (prev : Nat × Nat),
    gapsGo 0 (emitGo tot k prev rest)
      = ((prev :: rest).zip rest).map
          (fun q => if tot < (q.2.1 - q.1.2) * k then 1 else 0) := by
  intro rest
  induction rest with
  | nil => intro prev; simp [emitGo, gapsGo]
  | cons s r ih =>
    intro prev
    by_cases h : tot < (s.1 - prev.2) * k <;> simp [emitGo, h, gapsGo, ih]

/-- C7: in every segmented page the crops are exactly the detected
spans in order, and between each pair of consecutive spans a paragraph
marker appears exactly when the vertical gap exceeds the average span
height (one marker for an exceeding gap, none otherwise, hence none for
smaller gaps); a blank page and a page whose only ink run is 5 pixels
tall (below the 15-pixel floor) both yield the empty sequence. -/
theorem segment_lines_paragraph_breaks :
    (∀ (img : List (List Nat)),
      gapsOf (segmentLines img 15) = gapIndicators (segmentSpans img 15)
      ∧ (segmentLines img 15).filterMap id = segmentSpans img 15)
    ∧ segmentLines blankPage 15 = []
    ∧ segmentLines thinBandPage 15 = [] := by
  refine ⟨fun img => ?_, by decide, by decide⟩
  cases hs : segmentSpans img 15 with
  | nil => simp [segmentLines, hs, gapsOf, gapIndicators]
  | cons s rest =>
    constructor
    · simp only [segmentLines, hs, gapsOf]
      rw [emitGo_gaps]
      simp [gapIndicators]
    · simp only [segmentLines, hs, List.filterMap_cons]
      simp [emitGo_filterMap]

theorem emitGo_marks (tot k : Nat) :
    ∀ (rest : List (Nat × Nat)) (prev : Nat × Nat),
    marksGo (emitGo tot k prev rest) = true := by
  intro rest
  induction rest with
  | nil => intro prev; simp [emitGo, marksGo]
  | cons s r ih =>
    intro prev
    by_cases h : tot < (s.1 - prev.2) * k <;> simp [emitGo, h, marksGo, ih]

/-- C9: for every input image (and any height floor) the segmenter
output never begins or ends with a paragraph marker and never contains
two adjacent markers: every `none` sentinel is immediately preceded and
immediately followed by a line crop. -/
theorem segment_lines_marker_structure :
    ∀ (img : List (List Nat)) (minH : Nat), marksOk (segmentLines img minH) = true := by
  intro img minH
  cases hs : segmentSpans img minH with
  | nil => simp [segmentLines, hs, marksOk]
  | cons s rest =>
    simp only [segmentLines, hs, marksOk]
    exact emitGo_marks _ _ rest s

/-- C8: `_add_log_entry` always leaves at most 50 entries with the new
entry at the front, `_append_progress_log` always leaves at most 200
lines, and appending 201 sequential lines to an initially empty Progress
Log leaves exactly lines 2 through 201 (line 1 is discarded first). -/
theorem log_retention_caps :
    (∀ (log : List LogEntry) (e : LogEntry),
      (addLogEntry log e).length ≤ 50 ∧ (addLogEntry log e).head? = some e)
    ∧ (∀ (lines : List String) (l : String), (appendProgressLine lines l).length ≤ 200)
    ∧ ((List.range 201).map (fun i => ("line ") ++ toString (i + 1))).foldl
          appendProgressLine []
        = ((List.range 201).map (fun i => ("line ") ++ toString (i + 1))).drop 1 := by
  refine ⟨fun log e => ⟨addLogEntry_length log e, addLogEntry_head log e⟩,
    fun lines l => ?_, by decide⟩
  simp only [appendProgressLine, List.length_drop, List.length_append,
    List.length_singleton]
  omega

/-- C10: in every cycle whose folder listing succeeds, each recorded
error names a listed file (so a pagination failure adds nothing to the
errors list); a failing `list_folder/continue` response ends the
pagination loop immediately, and nothing scripted after it is ever
consulted — only entries gathered from the earlier pages are kept. -/
theorem run_sync_pagination_failure (cfg : SyncConfig) (dest daily : String)
    (full : ListResp) (cont : List ListResp) (fes : Nat → FileEnv)
    (p : ListPage) (rest : List ListResp) (tl : List SyncEv) (o : SyncOutcome)
    (hok : initialListing cfg.cursor full cont = (ListResp.ok p, rest, tl))
    (hrun : runSync cfg dest daily full cont fes true = some o) :
    (∀ m ∈ o.res.errors, ∃ e ∈ o.listed, ∃ em, m = e.name ++ (": ") ++ em)
    ∧ (∀ (s1 s2 : List ListResp) (c : Nat) (txt : String) (page : ListPage)
        (acc : List FileEntry),
        paginate (s1 ++ ListResp.fail c txt :: s2) page acc
          = paginate (s1 ++ [ListResp.fail c txt]) page acc)
    ∧ (∀ (s2 : List ListResp) (c : Nat) (txt : String) (page : ListPage)
        (acc : List FileEntry), page.hasMore = true →
        paginate (ListResp.fail c txt :: s2) page acc = (acc, page, [SyncEv.contCall])) := by
  simp only [runSync, if_true, hok, runSyncCore, Option.some.injEq] at hrun
  subst hrun
  refine ⟨?_, fun s1 s2 c txt page acc => paginate_fail_indep c txt s1 s2 page acc,
    fun s2 c txt page acc h => paginate_fail_stop c txt s2 page acc h⟩
  intro m hm
  have := processAll_errors dest daily fes _ 0 _ emptyResults m (by simpa using hm)
  rcases this with h | h
  · simp [emptyResults] at h
  · simpa using h

/-- A concrete cycle for the C10 witness: the first page reports more
results, the only continuation response fails with a 500, and the
remainder of the script is never consulted. -/
def c10Page : ListPage :=
  ⟨[⟨("a.pdf"), ("/src/a.pdf"), 3, true⟩], true, some ("c-page1")⟩

def c10Cont : List ListResp := [ListResp.fail 500 ("server error")]

def c10Envs : Nat → FileEnv := fun _ => ⟨MetaRes.absent, CopyRes.okCopy⟩

def c10Val : SyncOutcome :=
  (runSync ⟨none, []⟩ ("/Dest") ("2026-02-08-W06-Sun") (ListResp.ok c10Page) c10Cont
    c10Envs true).getD ⟨emptyResults, ⟨none, []⟩, [], []⟩

/-- C10, witness: the pagination-failure facts instantiated on the
concrete cycle `c10Val`. -/
theorem run_sync_pagination_failure_witness :
    (∀ m ∈ c10Val.res.errors, ∃ e ∈ c10Val.listed, ∃ em, m = e.name ++ (": ") ++ em)
    ∧ (∀ (s1 s2 : List ListResp) (c : Nat) (txt : String) (page : ListPage)
        (acc : List FileEntry),
        paginate (s1 ++ ListResp.fail c txt :: s2) page acc
          = paginate (s1 ++ [ListResp.fail c txt]) page acc)
    ∧ (∀ (s2 : List ListResp) (c : Nat) (txt : String) (page : ListPage)
        (acc : List FileEntry), page.hasMore = true →
        paginate (ListResp.fail c txt :: s2) page acc = (acc, page, [SyncEv.contCall])) :=
  run_sync_pagination_failure ⟨none, []⟩ ("/Dest") ("2026-02-08-W06-Sun")
    (ListResp.ok c10Page) c10Cont c10Envs c10Page c10Cont [SyncEv.listCall]
    c10Val rfl rfl
